import Mathlib

/-!
# Verification of `auto_images2.py` (CSV Image Downloader)

A shallow embedding of the single-file Streamlit application
`src/auto_images2.py`.  Pure helpers (`safe_filename`, the filename/extension
derivation of `download_image`, the `csv.DictWriter` serialization) become Lean
functions; the Streamlit session state becomes an explicit record threaded
through the handlers; the external world (the image-search provider, the HTTP
download, the working-directory listing) is passed in as explicit parameters.
Machine side effects that the claims do not observe (actual file bytes on disk,
widget rendering) are abstracted to the data the program derives from them.
-/

set_option autoImplicit false

namespace AutoImages

/-- A parsed CSV row: a Python dict from column name to string value,
modelled as an insertion-ordered association list with unique keys
(as produced by `csv.DictReader`). -/
abbrev Row := List (String × String)

/-- `row.get(k, default)` without the default: first value stored under `k`. -/
def rowGet (k : String) : Row → Option String
  | [] => none
  | p :: r => if p.1 = k then some p.2 else rowGet k r

/-- Python dict assignment `row[k] = v`: overwrite in place when the key is
present, otherwise append at the end (insertion order). -/
def rowSet (r : Row) (k v : String) : Row :=
  if (rowGet k r).isSome then
    r.map (fun p => if p.1 = k then (k, v) else p)
  else
    r ++ [(k, v)]

/-- The ASCII whitespace characters removed by Python `str.strip()`
(the claims never exercise non-ASCII whitespace). -/
def isPySpace (c : Char) : Bool :=
  c = ' ' || c = '\t' || c = '\n' || c = '\r' || c = '\x0b' || c = '\x0c'

/-- Python `str.strip()` on a character list. -/
def pyStripList (cs : List Char) : List Char :=
  ((cs.dropWhile isPySpace).reverse.dropWhile isPySpace).reverse

/-- Python `str.strip()`. -/
def pyStripStr (s : String) : String :=
  String.mk (pyStripList s.data)

/-- The characters of the regex class `[\\/:*?"<>|]` in `safe_filename`. -/
def isIllegalChar (c : Char) : Bool :=
  c = '\\' || c = '/' || c = ':' || c = '*' || c = '?' || c = '"' ||
    c = '<' || c = '>' || c = '|'

/-- `re.sub(r'[\\/:*?"<>|]+', '_', text)`: each maximal run of characters from
the class is replaced by a single underscore (the `+` makes a run one match). -/
def collapseRunsAux : Bool → List Char → List Char
  | _, [] => []
  | inRun, c :: cs =>
    if isIllegalChar c then
      if inRun then collapseRunsAux true cs
      else '_' :: collapseRunsAux true cs
    else c :: collapseRunsAux false cs

def collapseRuns (l : List Char) : List Char :=
  collapseRunsAux false l

/-- `safe_filename` (line 14): regex substitution, then `.strip()`,
then `[:150]` (Python slices strings by code point). -/
def safe_filename (text : String) : String :=
  String.mk ((pyStripList (collapseRuns text.data)).take 150)

/-- Split a character list on `/`, keeping empty segments
(`str.split('/')`). -/
def splitOnSlash : List Char → List (List Char)
  | [] => [[]]
  | c :: rest =>
    if c = '/' then [] :: splitOnSlash rest
    else
      match splitOnSlash rest with
      | [] => [[c]]
      | g :: gs => (c :: g) :: gs

/-- `pathlib` `Path(p).name`: the last path component, with empty and `.`
segments dropped. -/
def pathName (p : String) : String :=
  String.mk (((splitOnSlash p.data).filter
    (fun s => s ≠ [] && s ≠ ['.'])).getLast?.getD [])

/-- Index of the last `.` in a character list (`str.rfind('.')`), if any. -/
def rfindDot (cs : List Char) : Option Nat :=
  ((List.range cs.length).filter (fun i => cs.get? i = some '.')).getLast?

/-- `pathlib` `Path(p).suffix`: the extension of the final component; empty
when the last dot is leading or trailing (CPython condition
`0 < i < len(name) - 1`). -/
def pathSuffix (p : String) : String :=
  let cs := (pathName p).data
  match rfindDot cs with
  | none => ""
  | some i => if 0 < i ∧ i + 1 < cs.length then String.mk (cs.drop i) else ""

/-- `fn.lower().endswith((".jpg", ".jpeg", ".png", ".gif", ".webp"))`
(line 116); `Char.toLower` matches Python `str.lower` on the ASCII range the
extensions live in. -/
def isImageName (fn : String) : Bool :=
  let l := fn.data.map Char.toLower
  List.isSuffixOf ".jpg".data l || List.isSuffixOf ".jpeg".data l ||
    List.isSuffixOf ".png".data l || List.isSuffixOf ".gif".data l ||
    List.isSuffixOf ".webp".data l

/-! ## csv.DictWriter -/

/-- A field needs quoting under `csv.QUOTE_MINIMAL` with the default dialect. -/
def needsQuote (s : String) : Bool :=
  s.data.any (fun c => c = ',' || c = '"' || c = '\r' || c = '\n')

/-- Serialize one CSV field: quote and double embedded quotes when needed. -/
def csvField (s : String) : String :=
  if needsQuote s then
    "\"" ++ String.mk (s.data.foldr
      (fun c acc => if c = '"' then '"' :: '"' :: acc else c :: acc) []) ++ "\""
  else s

/-- One serialized CSV record (the line terminator is kept abstract:
the archive entry is modelled as a list of lines). -/
def csvLine (fields : List String) : String :=
  String.intercalate "," (fields.map csvField)

/-- `csv.DictWriter(..., fieldnames).writerow(row)` with the default
`extrasaction` of raising: a `ValueError` when the dict holds a key outside
`fieldnames`, otherwise the fields in `fieldnames` order with the default
restval for missing keys. -/
def dictWriterRow (fns : List String) (row : Row) : Except String String :=
  if row.any (fun p => !(fns.contains p.1)) then
    Except.error "dict contains fields not in fieldnames"
  else
    Except.ok (csvLine (fns.map (fun k => (rowGet k row).getD "")))

/-! ## Image Fetcher (`download_image`, lines 17-34) -/

/-- The external world one `download_image` call sees.
`search` is the outcome of `DDGS().images(query=desc, max_results=1)`:
an exception, or the list of result-URL path components
(`urlparse(results[0].image).path`, the URL parser being external library
code).  `http` is the combined outcome of `requests.get`,
`raise_for_status` and the file write. -/
structure FetchEnv where
  search : Except String (List String)
  http : Except String Unit

/-- `download_image(desc, out_dir)` (lines 17-34).  The `try/except` re-raises
every exception, so failures of the search, the HTTP GET, the status check and
the file write all propagate to the caller; an empty result list returns the
empty string without an error. -/
def download_image (desc : String) (env : FetchEnv) : Except String String :=
  match env.search with
  | Except.error e => Except.error e
  | Except.ok [] => Except.ok ""
  | Except.ok (p :: _) =>
    let suf := pathSuffix p
    let ext := if suf = "" then ".jpg" else suf
    let fname := safe_filename desc ++ ext
    match env.http with
    | Except.error e => Except.error e
    | Except.ok _ => Except.ok fname

/-! ## Session state and presentation (lines 36-73, 122-128) -/

/-- An in-memory results ZIP (lines 106-119): the lines of the `updated.csv`
entry followed by the names of the image entries, in insertion order. -/
structure Archive where
  csvLines : List String
  imageEntries : List String
deriving Repr, DecidableEq

/-- `st.session_state` after the `setdefault` loop of lines 40-41.  `none`
models both an absent key and the default `None`; `log_buffer` is only
created by `log()` itself (line 46), so it has its own `Option`. -/
structure SessionState where
  csv_uploaded : Option String
  rows : List Row
  fieldnames : Option (List String)
  zip_ready : Option Archive
  log_buffer : Option (List String)
deriving Repr, DecidableEq

/-- The state right after the first script run: the `setdefault` loop has
installed `None` for every key except `rows` (empty list), and `log_buffer`
does not exist yet. -/
def initialState : SessionState :=
  { csv_uploaded := none, rows := [], fieldnames := none,
    zip_ready := none, log_buffer := none }

/-- `log(msg)` (lines 45-48): append to the buffer, creating it on first use
(the display cap of 200 lines only limits rendering, not the buffer). -/
def appendLog (st : SessionState) (msg : String) : SessionState :=
  { st with log_buffer := some ((st.log_buffer.getD []) ++ [msg]) }

def appendLogs (st : SessionState) (msgs : List String) : SessionState :=
  msgs.foldl appendLog st

/-- `reset_app` (lines 50-53): every key is popped, and the rerun's
`setdefault` loop restores the initial values; `log_buffer` stays absent
until the next `log()` call. -/
def reset_app (_st : SessionState) : SessionState :=
  { csv_uploaded := none, rows := [], fieldnames := none,
    zip_ready := none, log_buffer := none }

/-- The upload block of line 56 renders the file-uploader prompt exactly when
`csv_uploaded is None`. -/
def showsUploadPrompt (st : SessionState) : Bool :=
  st.csv_uploaded.isNone

/-- The processing block of line 76 renders when `csv_uploaded` is truthy
(a non-`None`, nonempty name) and `zip_ready` is falsy.  A finalized ZIP
buffer is never the empty byte string, so `zip_ready`'s truthiness is
`isSome`. -/
def showsProcessing (st : SessionState) : Bool :=
  (match st.csv_uploaded with
   | none => false
   | some s => s ≠ "") && !st.zip_ready.isSome

/-- The download/reset block of line 123 renders when `zip_ready` is truthy. -/
def showsDownload (st : SessionState) : Bool :=
  st.zip_ready.isSome

/-- The upload handler (lines 56-71) applied to the parsed upload:
`fieldnames` and `rows` are what `csv.DictReader` produced (already
`reader.fieldnames or []`).  A header without a `description` column shows
an error and changes no state; otherwise the three session keys are set. -/
def uploadCSV (st : SessionState) (name : String) (fns : List String)
    (rows : List Row) : SessionState :=
  if fns.contains "description" then
    { st with csv_uploaded := some name, rows := rows, fieldnames := some fns }
  else st

/-! ## Row Processor (lines 80-103) -/

/-- Observable side effects of one loop iteration other than logging:
`progressUpd done total` models `progress.progress((idx + 1) / len(rows))`
with the float division left symbolic as the pair of operands, and `sleep`
models `time.sleep(random.uniform(1, 3))`. -/
inductive Event where
  | progressUpd (done total : Nat)
  | sleep
deriving Repr, DecidableEq

/-- `row.get("description", "").strip()` (line 85). -/
def descOf (row : Row) : String :=
  pyStripStr ((rowGet "description" row).getD "")

def logStart : String := "🚀 Starting download…"

def logSkip (n : Nat) : String :=
  s!"⚠️ Row {n}: empty description – skipped"

def logSearching (d60 : String) (n : Nat) : String :=
  s!"📥 Row {n}: searching image for \x27{d60}…\x27"

def logSaved (fname : String) (n : Nat) : String :=
  s!"✅ Row {n}: saved as {fname}"

def logNoImage (n : Nat) : String :=
  s!"⚠️ Row {n}: no image found"

def logError (e : String) (n : Nat) : String :=
  s!"❌ Row {n}: error – {e}"

/-- Result of one iteration of the row loop: the mutated row, the log lines
appended, and the progress/sleep events in order. -/
structure RowStep where
  row : Row
  logs : List String
  events : List Event
deriving Repr, DecidableEq

/-- One iteration of the `for idx, row in enumerate(rows)` loop
(lines 84-103).  An empty trimmed description `continue`s before the
progress update and the sleep; every other path — saved image, no result,
caught exception — sets `row["image"]` and then runs both. -/
def processRow (idx total : Nat) (row : Row) (env : FetchEnv) : RowStep :=
  let desc := descOf row
  let n := idx + 1
  if desc = "" then
    { row := rowSet row "image" "", logs := [logSkip n], events := [] }
  else
    let d60 := String.mk (desc.data.take 60)
    let after : Row × String :=
      match download_image desc env with
      | Except.ok fname =>
        if fname ≠ "" then (rowSet row "image" fname, logSaved fname n)
        else (rowSet row "image" "", logNoImage n)
      | Except.error e => (rowSet row "image" "", logError e n)
    { row := after.1, logs := [logSearching d60 n, after.2],
      events := [Event.progressUpd n total, Event.sleep] }

/-- Accumulated outcome of the whole row loop. -/
structure RunResult where
  rows : List Row
  logs : List String
  events : List Event
deriving Repr, DecidableEq

/-- The row loop, with `envs idx` the external world seen by row `idx` and
`total` the fixed `len(rows)` of the full list. -/
def runRows (envs : Nat → FetchEnv) (total : Nat) : Nat → List Row → RunResult
  | _, [] => { rows := [], logs := [], events := [] }
  | idx, row :: rest =>
    let s := processRow idx total row (envs idx)
    let r := runRows envs total (idx + 1) rest
    { rows := s.row :: r.rows, logs := s.logs ++ r.logs,
      events := s.events ++ r.events }

/-! ## Archive Builder and the Start Processing handler (lines 80-120) -/

/-- `DictWriter.writerows(rows)` (line 112): serialize the rows in order;
the first row holding a key outside `fieldnames` raises and aborts. -/
def writeRows (fns : List String) : List Row → Except String (List String)
  | [] => Except.ok []
  | r :: rs =>
    match dictWriterRow fns r with
    | Except.error e => Except.error e
    | Except.ok line =>
      match writeRows fns rs with
      | Except.error e => Except.error e
      | Except.ok lines => Except.ok (line :: lines)

/-- Lines 106-117: write `updated.csv` (header via one `DictWriter`, rows via
another, both over the session `fieldnames`), then add every
working-directory file with a recognized image extension.  `dirListing` is
`os.listdir(out_dir)` at line 115 — after `updated.csv` and the downloaded
files were written there, and including whatever else the directory held.
A `ValueError` from `DictWriter` aborts the build. -/
def buildZip (fns : List String) (rows : List Row) (dirListing : List String) :
    Except String Archive :=
  match writeRows fns rows with
  | Except.error e => Except.error e
  | Except.ok body =>
    Except.ok { csvLines := csvLine fns :: body,
                imageEntries := dirListing.filter isImageName }

/-- The Start Processing handler (lines 80-120): log the start line, run the
row loop over the session rows (mutating them in place), build the ZIP, and
store it in `zip_ready`.  An uncaught exception from the build step is an
`Except.error`: `zip_ready` is never set. -/
def startProcessing (st : SessionState) (envs : Nat → FetchEnv)
    (dirListing : List String) : Except String SessionState :=
  let st1 := appendLog st logStart
  let rr := runRows envs st.rows.length 0 st.rows
  let st2 := { appendLogs st1 rr.logs with rows := rr.rows }
  match buildZip (st.fieldnames.getD []) rr.rows dirListing with
  | Except.error e => Except.error e
  | Except.ok ar => Except.ok { st2 with zip_ready := some ar }

/-! ## Fixed external worlds used for concrete runs -/

/-- Search succeeds with no result; any HTTP call would succeed. -/
def envNoHit : FetchEnv := ⟨Except.ok [], Except.ok ()⟩

/-- Search returns one result whose URL path is `p`; download succeeds. -/
def envHit (p : String) : FetchEnv := ⟨Except.ok [p], Except.ok ()⟩

/-- The search call itself raises `e`. -/
def envSearchFail (e : String) : FetchEnv := ⟨Except.error e, Except.ok ()⟩

/-- Search finds a result but the download/write raises `e`. -/
def envHttpFail (p e : String) : FetchEnv := ⟨Except.ok [p], Except.error e⟩

/-- A session in the Ready state (archive bytes present). -/
def readyState : SessionState :=
  { csv_uploaded := some "t.csv",
    rows := [[("description", "cat"), ("image", "cat.png")]],
    fieldnames := some ["description"],
    zip_ready := some { csvLines := ["description"], imageEntries := ["cat.png"] },
    log_buffer := some [logStart] }

/-- The sanitization the claim describes: every single occurrence of a
character from the illegal set is replaced by its own underscore.  The code
(`safe_filename`, whose regex class carries a `+`) instead replaces each
maximal run by one underscore; the two are compared below. -/
def replacePerOccurrence (text : String) : String :=
  String.mk (text.data.map (fun c => if isIllegalChar c then '_' else c))

/-! ## Shared lemmas about the embedding -/

theorem rowGet_map_overwrite (r : Row) (k v : String)
    (h : (rowGet k r).isSome) :
    rowGet k (r.map (fun p => if p.1 = k then (k, v) else p)) = some v := by
  induction r with
  | nil => simp [rowGet] at h
  | cons p r ih =>
    by_cases hpk : p.1 = k
    · simp [rowGet, hpk]
    · have h' : (rowGet k r).isSome := by simpa [rowGet, hpk] using h
      simpa [rowGet, hpk] using ih h'

theorem rowGet_append_of_none (r l : Row) (k : String)
    (h : rowGet k r = none) : rowGet k (r ++ l) = rowGet k l := by
  induction r with
  | nil => rfl
  | cons p r ih =>
    by_cases hpk : p.1 = k
    · simp [rowGet, hpk] at h
    · simp only [rowGet, hpk, if_neg hpk] at h
      simpa [rowGet, hpk] using ih h

/-- Python dict assignment stores the assigned value: `row[k] = v` makes a
subsequent `row.get(k)` return `v`. -/
theorem rowGet_rowSet_self (r : Row) (k v : String) :
    rowGet k (rowSet r k v) = some v := by
  unfold rowSet
  by_cases h : (rowGet k r).isSome
  · rw [if_pos h]
    exact rowGet_map_overwrite r k v h
  · rw [if_neg h]
    have hn : rowGet k r = none := by
      cases hg : rowGet k r with
      | none => rfl
      | some w => rw [hg] at h; simp at h
    rw [rowGet_append_of_none r _ k hn]
    simp [rowGet]

/-- The row loop completes every row: the output list has one (mutated) row
per input row, whatever the external outcomes were. -/
theorem runRows_length (envs : Nat → FetchEnv) (total idx : Nat)
    (rows : List Row) :
    (runRows envs total idx rows).rows.length = rows.length := by
  induction rows generalizing idx with
  | nil => rfl
  | cons r rest ih => simp [runRows, ih]

/-- Every branch of a loop iteration assigns `row["image"]`. -/
theorem processRow_image_isSome (idx total : Nat) (row : Row)
    (env : FetchEnv) :
    (rowGet "image" (processRow idx total row env).row).isSome = true := by
  unfold processRow
  by_cases hd : descOf row = ""
  · simp [hd, rowGet_rowSet_self]
  · cases hdl : download_image (descOf row) env with
    | error e => simp [hd, hdl, rowGet_rowSet_self]
    | ok fname =>
      by_cases hf : fname = ""
      · simp [hd, hdl, hf, rowGet_rowSet_self]
      · simp [hd, hdl, hf, rowGet_rowSet_self]

/-- A row holding a key outside `fieldnames` makes the default-`extrasaction`
`DictWriter` raise. -/
theorem dictWriterRow_error_of_extra (fns : List String) (r : Row)
    (k v : String) (hk : fns.contains k = false) (h : rowGet k r = some v) :
    dictWriterRow fns r = Except.error "dict contains fields not in fieldnames" := by
  unfold dictWriterRow
  have hex : ∃ q ∈ r, q.1 = k := by
    induction r with
    | nil => simp [rowGet] at h
    | cons p r ih =>
      by_cases hpk : p.1 = k
      · exact ⟨p, List.mem_cons_self p r, hpk⟩
      · have h' : rowGet k r = some v := by simpa [rowGet, hpk] using h
        rcases ih h' with ⟨q, hq, hqk⟩
        exact ⟨q, List.mem_cons_of_mem p hq, hqk⟩
  rcases hex with ⟨q, hq, hqk⟩
  have hqb : (!(fns.contains q.1)) = true := by rw [hqk, hk]; rfl
  rw [if_pos (List.any_eq_true.mpr ⟨q, hq, hqb⟩)]

theorem collapseRunsAux_no_illegal (l : List Char) :
    ∀ (b : Bool), ∀ c ∈ collapseRunsAux b l, isIllegalChar c = false := by
  induction l with
  | nil => intro b c hc; simp [collapseRunsAux] at hc
  | cons a as ih =>
    intro b c hc
    cases ha : isIllegalChar a with
    | true =>
      simp only [collapseRunsAux, ha, if_true] at hc
      cases b with
      | true => exact ih true c (by simpa using hc)
      | false =>
        rcases List.mem_cons.mp (by simpa using hc) with h1 | h2
        · rw [h1]; rfl
        · exact ih true c h2
    | false =>
      simp only [collapseRunsAux, ha] at hc
      rcases List.mem_cons.mp (by simpa using hc) with h1 | h2
      · rw [h1]; exact ha
      · exact ih false c h2

theorem collapseRuns_no_illegal (l : List Char) :
    ∀ c ∈ collapseRuns l, isIllegalChar c = false :=
  collapseRunsAux_no_illegal l false

theorem mem_pyStripList {c : Char} {l : List Char}
    (h : c ∈ pyStripList l) : c ∈ l := by
  unfold pyStripList at h
  rw [List.mem_reverse] at h
  have h1 := (List.dropWhile_suffix isPySpace).sublist.mem h
  rw [List.mem_reverse] at h1
  exact (List.dropWhile_suffix isPySpace).sublist.mem h1

/-! ## Claim theorems -/

/-- **C1.** The claim says the `updated.csv` entry of the archive parses back
to the original columns plus an `image` column.  The code instead constructs
both `DictWriter`s over the original `fieldnames` alone (lines 111-112) while
every processed row now carries the extra `image` key, so the default
`extrasaction` raises `ValueError` and the handler aborts before an archive
is ever stored: whenever the table has at least one data row and its header
has no `image` column, Start Processing ends in the uncaught error. -/
theorem updatedCsv_build_raises (st : SessionState) (fns : List String)
    (envs : Nat → FetchEnv) (listing : List String) (row : Row)
    (rest : List Row) (hfns : st.fieldnames = some fns)
    (himg : fns.contains "image" = false) (hrows : st.rows = row :: rest) :
    startProcessing st envs listing =
      Except.error "dict contains fields not in fieldnames" := by
  have himgrow :=
    processRow_image_isSome 0 (row :: rest).length row (envs 0)
  cases hw : rowGet "image" (processRow 0 (row :: rest).length row (envs 0)).row with
  | none => rw [hw] at himgrow; simp at himgrow
  | some w =>
    have herr := dictWriterRow_error_of_extra fns
      (processRow 0 (row :: rest).length row (envs 0)).row "image" w himg hw
    simp only [startProcessing, hrows, hfns, runRows, buildZip, writeRows,
      Option.getD_some, herr]

/-- **C1 witness.** A one-row table whose header is just `description`:
the run ends in the `ValueError`, not in a stored archive. -/
theorem updatedCsv_build_raises_witness :
    startProcessing (uploadCSV initialState "t.csv" ["description"]
        [[("description", "cat")]]) (fun _ => envNoHit) ["updated.csv"] =
      Except.error "dict contains fields not in fieldnames" :=
  updatedCsv_build_raises _ ["description"] _ _ [("description", "cat")] []
    rfl (by decide) rfl

/-- **C2.** Per-row failures never escape the Row Processor: the loop
completes one output row per input row for any mix of outcomes, and a row on
which `download_image` raised ends with `image = ""` and log lines
appended. -/
theorem row_failures_contained :
    (∀ (envs : Nat → FetchEnv) (total idx : Nat) (rows : List Row),
      (runRows envs total idx rows).rows.length = rows.length) ∧
    (∀ (idx total : Nat) (row : Row) (env : FetchEnv) (e : String),
      download_image (descOf row) env = Except.error e →
      rowGet "image" (processRow idx total row env).row = some "" ∧
      (processRow idx total row env).logs ≠ []) := by
  refine ⟨runRows_length, ?_⟩
  intro idx total row env e h
  by_cases hd : descOf row = ""
  · constructor
    · simp [processRow, hd, rowGet_rowSet_self]
    · simp [processRow, hd]
  · constructor
    · simp [processRow, hd, h, rowGet_rowSet_self]
    · simp [processRow, hd, h]

/-- **C2 witness.** A search raising on a nonempty description: the row's
`image` is the empty string and the failure was logged. -/
theorem row_failures_contained_witness :
    rowGet "image" (processRow 0 1 [("description", "dog")]
        (envSearchFail "boom")).row = some "" ∧
    (processRow 0 1 [("description", "dog")] (envSearchFail "boom")).logs ≠ [] :=
  row_failures_contained.2 0 1 [("description", "dog")]
    (envSearchFail "boom") "boom" rfl

/-- **C3 counterexample.** A run over one whitespace-only-description row:
the row is processed (it is completed and counted), yet no progress update
and no pause happen — the `continue` at line 89 jumps past both.  This
refutes the claim that progress is updated and a pause inserted after an
empty-description skip as well. -/
theorem skip_row_no_progress_cex :
    (runRows (fun _ => envNoHit) 1 0 [[("description", " ")]]).rows.length = 1 ∧
    (runRows (fun _ => envNoHit) 1 0 [[("description", " ")]]).events = [] := by
  exact ⟨rfl, rfl⟩

/-- **C3 (amended).** After each row with a nonempty trimmed description —
success and failure alike — the processor updates the progress fraction to
(rows completed) / (total rows) and then pauses; a row skipped for an empty
description is followed by neither. -/
theorem progress_pause_nonskip (idx total : Nat) (row : Row)
    (env : FetchEnv) :
    (descOf row ≠ "" →
      (processRow idx total row env).events =
        [Event.progressUpd (idx + 1) total, Event.sleep]) ∧
    (descOf row = "" → (processRow idx total row env).events = []) := by
  constructor <;> intro h <;> simp [processRow, h]

/-- **C3 (amended) witness.** A successful row is followed by the progress
update `2 / 3` and the pause. -/
theorem progress_pause_nonskip_witness :
    (processRow 1 3 [("description", "cat")] (envHit "/i/cat.png")).events =
      [Event.progressUpd 2 3, Event.sleep] :=
  (progress_pause_nonskip 1 3 [("description", "cat")]
    (envHit "/i/cat.png")).1 (by decide)

/-- **C4 counterexample.** `safe_filename` substitutes the regex class
`[\\/:*?"<>|]+` — with `+`, so a run of consecutive illegal characters
becomes a single underscore, not one underscore per occurrence as the claim
states: `"a::b"` maps to `"a_b"`, not `"a__b"`. -/
theorem sanitize_collapses_runs_cex :
    safe_filename "a::b" = "a_b" ∧
    replacePerOccurrence "a::b" = "a__b" ∧
    ("a_b" : String) ≠ "a__b" := by
  refine ⟨by decide, by decide, by decide⟩

/-- **C4 (amended).** The derived filename replaces each maximal run of
characters from `\ / : * ? " < > |` with a single underscore, strips
surrounding whitespace, and is at most 150 characters, none of them from the
illegal set; the extension taken from the result URL's path (`.jpg` when the
path has none) is appended only after that truncation. -/
theorem sanitize_bounds (text : String) :
    (safe_filename text).length ≤ 150 ∧
    (∀ c ∈ (safe_filename text).data, isIllegalChar c = false) ∧
    (∀ (desc p : String),
      download_image desc (envHit p) =
        Except.ok (safe_filename desc ++
          (if pathSuffix p = "" then ".jpg" else pathSuffix p))) := by
  refine ⟨?_, ?_, ?_⟩
  · exact List.length_take_le 150 (pyStripList (collapseRuns text.data))
  · intro c hc
    have h1 : c ∈ pyStripList (collapseRuns text.data) :=
      (List.take_sublist 150 _).mem hc
    exact collapseRuns_no_illegal text.data c (mem_pyStripList h1)
  · intro desc p
    simp [download_image, envHit]

/-- **C4 (amended) witness.** A 200-character description of stars and `x`s:
the sanitized stem is 150 characters, underscore included, and the `.png`
extension from the URL path is appended after the truncation. -/
theorem sanitize_bounds_witness :
    (safe_filename (String.mk (List.replicate 200 'x'))).length ≤ 150 ∧
    download_image "cat" (envHit "/i/cat.png") = Except.ok "cat.png" :=
  ⟨(sanitize_bounds (String.mk (List.replicate 200 'x'))).1,
    ((sanitize_bounds "").2.2 "cat" "/i/cat.png").trans
      (congrArg Except.ok (by decide))⟩

/-- **C5 counterexample.** The image entries are whatever image-named files
the working directory holds, not one per successfully downloaded row: a run
over an empty table (zero downloads) with a stale `old.jpg` left in the
directory produces an archive holding the image entry `old.jpg` with no
corresponding successful row. -/
theorem archive_stale_image_cex :
    startProcessing (uploadCSV initialState "t.csv" ["description"] [])
        (fun _ => envNoHit) ["old.jpg", "updated.csv"] =
      Except.ok
        { csv_uploaded := some "t.csv", rows := [],
          fieldnames := some ["description"],
          zip_ready := some (Archive.mk ["description"] ["old.jpg"]),
          log_buffer := some [logStart] } := by
  rfl

/-- **C5 (amended).** A successfully built archive holds exactly one
delimited-text entry (`updated.csv`, headed by the header line) plus image
entries that are exactly the working-directory files whose lowercased names
end in a recognized image extension — the table file and non-image files are
skipped, filenames are preserved, and any stale image file in the directory
is included too. -/
theorem archive_entries_shape (fns : List String) (rows : List Row)
    (listing : List String) (ar : Archive)
    (h : buildZip fns rows listing = Except.ok ar) :
    (∀ fn ∈ ar.imageEntries, fn ∈ listing ∧ isImageName fn = true) ∧
    (∀ fn ∈ listing, isImageName fn = true → fn ∈ ar.imageEntries) ∧
    ("updated.csv" ∉ ar.imageEntries) ∧
    ar.csvLines.head? = some (csvLine fns) := by
  unfold buildZip at h
  cases hm : writeRows fns rows with
  | error e => rw [hm] at h; cases h
  | ok body =>
    rw [hm] at h
    cases h
    refine ⟨?_, ?_, ?_, rfl⟩
    · intro fn hfn
      exact ⟨List.mem_of_mem_filter hfn, List.of_mem_filter hfn⟩
    · intro fn hfn hi
      exact List.mem_filter.mpr ⟨hfn, hi⟩
    · intro hmem
      have hcsv := List.of_mem_filter hmem
      simp [isImageName, List.isSuffixOf] at hcsv

/-- **C5 (amended) witness.** A directory holding `cat.png`, `updated.csv`
and `notes.txt`: the archive picks up exactly `cat.png`. -/
theorem archive_entries_shape_witness :
    ("cat.png" ∈ (Archive.mk ["description"] ["cat.png"]).imageEntries ∧
      isImageName "cat.png" = true) ∧
    ("updated.csv" ∉ (Archive.mk ["description"] ["cat.png"]).imageEntries) := by
  have h := archive_entries_shape ["description"] []
    ["cat.png", "updated.csv", "notes.txt"] (Archive.mk ["description"] ["cat.png"])
    (by rfl)
  exact ⟨⟨(h.2.1 "cat.png" (by decide) (by decide)), by decide⟩, h.2.2.1⟩

/-- **C6.** An uploaded table whose header lacks a `description` column is
rejected: the handler shows an error and writes none of the session keys, so
ingestion starting from the initial state leaves it exactly initial. -/
theorem upload_missing_description_rejected (st : SessionState)
    (name : String) (fns : List String) (rows : List Row)
    (h : fns.contains "description" = false) :
    uploadCSV st name fns rows = st ∧
    uploadCSV initialState name fns rows = initialState := by
  have h' : "description" ∉ fns := by simpa using h
  constructor <;> simp [uploadCSV, h']

/-- **C6 witness.** A header with only a `name` column changes nothing. -/
theorem upload_missing_description_rejected_witness :
    uploadCSV initialState "t.csv" ["name"] [[("name", "x")]] = initialState :=
  (upload_missing_description_rejected initialState "t.csv" ["name"]
    [[("name", "x")]] (by decide)).1

/-- **C7.** A row whose description trims to empty is skipped without
consulting the fetcher: the iteration's result is the same for every external
world, `image` is set to the empty string, exactly the skip line is logged,
and the loop still processes the remaining rows. -/
theorem blank_description_skipped (idx total : Nat) (row : Row)
    (env env2 : FetchEnv) (envs : Nat → FetchEnv) (rest : List Row)
    (h : descOf row = "") :
    processRow idx total row env = processRow idx total row env2 ∧
    rowGet "image" (processRow idx total row env).row = some "" ∧
    (processRow idx total row env).logs = [logSkip (idx + 1)] ∧
    (runRows envs total idx (row :: rest)).rows.length = rest.length + 1 := by
  refine ⟨?_, ?_, ?_, ?_⟩
  · simp [processRow, h]
  · simp [processRow, h, rowGet_rowSet_self]
  · simp [processRow, h]
  · simp [runRows, runRows_length]

/-- **C7 witness.** A whitespace-only description with a would-succeed and a
would-fail world: the outcomes coincide, `image` is empty, the skip is
logged, and the following row is still processed. -/
theorem blank_description_skipped_witness :
    processRow 0 2 [("description", "  ")] (envHit "/i/x.png") =
      processRow 0 2 [("description", "  ")] (envSearchFail "boom") ∧
    rowGet "image" (processRow 0 2 [("description", "  ")]
      (envHit "/i/x.png")).row = some "" ∧
    (processRow 0 2 [("description", "  ")] (envHit "/i/x.png")).logs =
      [logSkip 1] ∧
    (runRows (fun _ => envHit "/i/x.png") 2 0
      [[("description", "  ")], [("description", "cat")]]).rows.length = 1 + 1 :=
  blank_description_skipped 0 2 [("description", "  ")] (envHit "/i/x.png")
    (envSearchFail "boom") (fun _ => envHit "/i/x.png")
    [[("description", "cat")]] (by decide)

/-- **C8.** A search with no result makes `download_image` return the empty
string rather than raise, and the Row Processor maps that empty result to
`image = ""`, logs the search line plus the no-image line, and still
processes the remaining rows. -/
theorem no_match_empty_indicator :
    (∀ desc : String, download_image desc envNoHit = Except.ok "") ∧
    (∀ (idx total : Nat) (row : Row) (env : FetchEnv) (envs : Nat → FetchEnv)
        (rest : List Row),
      descOf row ≠ "" → download_image (descOf row) env = Except.ok "" →
      rowGet "image" (processRow idx total row env).row = some "" ∧
      (processRow idx total row env).logs =
        [logSearching (String.mk ((descOf row).data.take 60)) (idx + 1),
          logNoImage (idx + 1)] ∧
      (runRows envs total idx (row :: rest)).rows.length = rest.length + 1) := by
  constructor
  · intro desc; rfl
  · intro idx total row env envs rest hd h
    refine ⟨?_, ?_, ?_⟩
    · simp [processRow, hd, h, rowGet_rowSet_self]
    · simp [processRow, hd, h]
    · simp [runRows, runRows_length]

/-- **C8 witness.** One row, `cat`, no search hit: empty `image`, the two
log lines, and the loop completes. -/
theorem no_match_empty_indicator_witness :
    rowGet "image" (processRow 0 1 [("description", "cat")] envNoHit).row =
      some "" ∧
    (processRow 0 1 [("description", "cat")] envNoHit).logs =
      [logSearching "cat" 1, logNoImage 1] ∧
    (runRows (fun _ => envNoHit) 1 0 [[("description", "cat")]]).rows.length =
      0 + 1 :=
  no_match_empty_indicator.2 0 1 [("description", "cat")] envNoHit
    (fun _ => envNoHit) [] (by decide) rfl

/-- **C9.** `reset_app` pops every session key, and the rerun reinstalls the
initial values: all fields are back to their initial empty/absent state and
only the upload prompt renders. -/
theorem reset_restores_initial (st : SessionState)
    (h : st.zip_ready.isSome = true) :
    reset_app st = initialState ∧
    (reset_app st).csv_uploaded = none ∧ (reset_app st).rows = [] ∧
    (reset_app st).fieldnames = none ∧ (reset_app st).zip_ready = none ∧
    (reset_app st).log_buffer = none ∧
    showsUploadPrompt (reset_app st) = true ∧
    showsProcessing (reset_app st) = false ∧
    showsDownload (reset_app st) = false :=
  ⟨rfl, rfl, rfl, rfl, rfl, rfl, rfl, rfl, rfl⟩

/-- **C9 witness.** Resetting a concrete Ready-state session restores the
initial state and the upload prompt. -/
theorem reset_restores_initial_witness :
    reset_app readyState = initialState ∧
    showsUploadPrompt (reset_app readyState) = true := by
  have h := reset_restores_initial readyState rfl
  exact ⟨h.1, h.2.2.2.2.2.2.1⟩

/-- **C10.** A valid header with zero data rows: the loop body never runs
(no progress call, so `len(rows)` is never a divisor — the division at
line 102 only executes inside the loop), the handler completes without
error, and the stored archive's `updated.csv` entry is just the header
line. -/
theorem empty_table_run_safe (st : SessionState) (fns : List String)
    (envs : Nat → FetchEnv) (listing : List String)
    (h1 : st.rows = []) (h2 : st.fieldnames = some fns) :
    startProcessing st envs listing =
      Except.ok
        { appendLog st logStart with
          rows := [],
          zip_ready := some (Archive.mk [csvLine fns]
            (listing.filter isImageName)) } ∧
    (runRows envs 0 0 ([] : List Row)).events = [] ∧
    (runRows envs 0 0 ([] : List Row)).rows = [] := by
  refine ⟨?_, rfl, rfl⟩
  simp [startProcessing, h1, h2, runRows, buildZip, writeRows, appendLogs]

/-- **C10 witness.** A header-only upload processed against a directory with
no image files: success, an archive whose CSV entry is only the header, and
an empty event trace. -/
theorem empty_table_run_safe_witness :
    startProcessing (uploadCSV initialState "t.csv" ["description"] [])
        (fun _ => envNoHit) ["notes.txt"] =
      Except.ok
        { csv_uploaded := some "t.csv", rows := [],
          fieldnames := some ["description"],
          zip_ready := some (Archive.mk ["description"] []),
          log_buffer := some [logStart] } ∧
    (runRows (fun _ => envNoHit) 0 0 ([] : List Row)).events = [] := by
  have h := empty_table_run_safe
    (uploadCSV initialState "t.csv" ["description"] []) ["description"]
    (fun _ => envNoHit) ["notes.txt"] rfl rfl
  exact ⟨h.1, h.2.1⟩

end AutoImages
